import Mathlib

/-
Verification of the matchering web application's audio-processing core.

This file gives a shallow embedding, in Lean 4, of the parts of the
repository that the checked properties talk about:

* `app/audio/frame_processor.py`  — the frame-based processing abstraction
  layer (`FrameBasedProcessor.__init__`, `_create_crossfade_window`);
* `tests/frame_processing/frame_algorithms.py` — `FrameConfig`,
  `CrossfadeGenerator`, `AudioFrameSegmenter.segment_audio` /
  `reconstruct_audio` / `_apply_crossfade`;
* `tests/frame_processing/frame_aware_limiter.py` — `StatefulSlidingWindow`,
  the gain-reduction computation of `_process_with_limiting`, and the
  lookahead-buffer bootstrap of `FrameAwareLimiter.process_frame`;
* `app/audio/channel_processor.py` — `process_channel` and
  `_align_audio_arrays`;
* `app/api/frame_endpoints.py` — `create_wav_header` and the WebSocket
  `audio_streaming_task` loop body;
* `app/main.py` — `start_job` / `finish_job` and the duplicate-submission
  check of `/api/process_single`.

Audio samples are modelled as real numbers (the Python code computes with
floats); blend ratios, decibel values and similar parameters that the code
compares against literal bounds are modelled as rationals so the
comparisons stay decidable.  File I/O is elided: a function that reads two
WAV files and then combines the arrays is modelled directly on the arrays,
with the sample rates passed alongside.
-/

namespace Matchering

/-! ## Python keyword-argument calls (`app/audio/frame_processor.py`)

`FrameBasedProcessor.__init__` executes

    self.frame_config = FrameConfig(
        frame_size=4096,
        overlap_ratio=4,
        crossfade_type="raised_cosine")

where `FrameConfig` is the dataclass imported from
`tests/frame_processing/frame_algorithms.py`, whose fields are
`name, full_frame_size, overlap_size, crossfade_type, description`
(all required, no defaults).  A Python dataclass call succeeds exactly
when every keyword names a field and every field receives a value; we
model that check on the lists of names. -/

/-- The field names of the `FrameConfig` dataclass in
`frame_algorithms.py`, in declaration order. -/
def frameConfigDataclassFields : List String :=
  ["name", "full_frame_size", "overlap_size", "crossfade_type", "description"]

/-- The keyword arguments `FrameBasedProcessor.__init__` passes to
`FrameConfig` (`app/audio/frame_processor.py`, lines 73-77). -/
def frameProcessorInitKwargNames : List String :=
  ["frame_size", "overlap_ratio", "crossfade_type"]

/-- A Python call `Dataclass(**kwargs)` (dataclass with no field defaults)
succeeds iff every keyword is a declared field and every field is given. -/
def kwargsAccepted (fields kwargs : List String) : Bool :=
  kwargs.all (fun k => fields.contains k) && fields.all (fun f => kwargs.contains f)

/-- `FrameBasedProcessor.__init__(sample_rate)`: stores the sample rate and
then constructs the `FrameConfig`; the construction raises `TypeError`
when the keyword-argument check fails, which aborts `__init__`. -/
def frame_based_processor_init (sample_rate : ℕ) : Except String ℕ :=
  if kwargsAccepted frameConfigDataclassFields frameProcessorInitKwargNames then
    Except.ok sample_rate
  else
    Except.error "TypeError: FrameConfig() got an unexpected keyword argument"

/-! ## Job bookkeeping (`app/main.py`)

`active_jobs` is a process-wide set of `"{job_type}_{content_hash}"` keys;
`processing_progress` maps job ids to progress records.  `start_job`
rejects a key already present, otherwise inserts it and writes the initial
progress record; `finish_job` looks the key up through the job's progress
record and removes it.  `/api/process_single` answers HTTP 429 when
`start_job` reports a duplicate. -/

/-- One entry of `processing_progress` (only the fields `start_job`
writes). -/
structure ProgressEntry where
  stage : String
  message : String
  progress : ℕ
  job_key : Option String
deriving DecidableEq

/-- The server's job-tracking state: the `active_jobs` set (as a list) and
the `processing_progress` dictionary. -/
structure ServerJobs where
  active_jobs : List String
  processing_progress : String → Option ProgressEntry

/-- The duplicate-detection key: `"{job_type}_{file_hash}"` when a content
hash is supplied, the bare job id otherwise. -/
def jobKey (job_id job_type : String) (file_hash : Option String) : String :=
  match file_hash with
  | some h => job_type ++ "_" ++ h
  | none => job_id

/-- `start_job` (`app/main.py` lines 272-290): refuse a duplicate key,
otherwise record the key and the initial progress entry. -/
def start_job (st : ServerJobs) (job_id job_type : String) (file_hash : Option String) :
    Bool × ServerJobs :=
  let key := jobKey job_id job_type file_hash
  if key ∈ st.active_jobs then (false, st)
  else
    (true,
      { active_jobs := key :: st.active_jobs,
        processing_progress := fun j =>
          if j = job_id then
            some { stage := "starting", message := "Starting " ++ job_type ++ "...",
                   progress := 0, job_key := some key }
          else st.processing_progress j })

/-- `finish_job` (`app/main.py` lines 292-297): look the job's key up in
its progress record and remove it from `active_jobs` if present. -/
def finish_job (st : ServerJobs) (job_id : String) : ServerJobs :=
  match st.processing_progress job_id with
  | Option.none => st
  | some entry =>
    match entry.job_key with
    | Option.none => st
    | some key =>
      if key ∈ st.active_jobs then
        { st with active_jobs := st.active_jobs.erase key }
      else st

/-- The admission check of `POST /api/process_single` (`app/main.py` lines
749-758): hash the uploaded content, call `start_job` with job type
`"process_single"`, and answer HTTP 429 on a duplicate. -/
def process_single_admission (st : ServerJobs) (job_id file_hash : String) :
    Except ℕ ServerJobs :=
  let r := start_job st job_id "process_single" (some file_hash)
  if r.1 = true then Except.ok r.2 else Except.error 429

/-! ## WAV header construction (`app/api/frame_endpoints.py`, lines 398-425)

`create_wav_header` packs `'<4sI4s4sIHHIIHH4sI'`.  `struct.pack` raises
when an `I` value is outside `[0, 2^32)` or an `H` value outside
`[0, 2^16)`; in-range values are encoded little-endian. -/

/-- Little-endian byte encoding of a 32-bit value (the `I` format). -/
def u32le (n : ℕ) : List ℕ :=
  [n % 256, n / 256 % 256, n / 65536 % 256, n / 16777216 % 256]

/-- Little-endian byte encoding of a 16-bit value (the `H` format). -/
def u16le (n : ℕ) : List ℕ :=
  [n % 256, n / 256 % 256]

/-- `struct.pack`'s range check plus encoding for format `I`. -/
def packU32 (n : ℕ) : Except String (List ℕ) :=
  if n < 4294967296 then Except.ok (u32le n)
  else Except.error "struct.error: argument out of range"

/-- `struct.pack`'s range check plus encoding for format `H`. -/
def packU16 (n : ℕ) : Except String (List ℕ) :=
  if n < 65536 then Except.ok (u16le n)
  else Except.error "struct.error: argument out of range"

/-- `create_wav_header(num_samples, sample_rate, channels)`: the literal
44-byte canonical PCM WAV header, via `struct.pack('<4sI4s4sIHHIIHH4sI',
...)` with 16-bit samples (`bytes_per_sample = 2`). -/
def create_wav_header (num_samples sample_rate channels : ℕ) :
    Except String (List ℕ) := do
  let bytes_per_sample := 2
  let data_size := num_samples * channels * bytes_per_sample
  let file_size := data_size + 36
  let chunkSize ← packU32 file_size
  let subchunk1Size ← packU32 16
  let audioFormat ← packU16 1
  let numChannels ← packU16 channels
  let sampleRate ← packU32 sample_rate
  let byteRate ← packU32 (sample_rate * channels * bytes_per_sample)
  let blockAlign ← packU16 (channels * bytes_per_sample)
  let bitsPerSample ← packU16 16
  let dataSize ← packU32 data_size
  pure ([82, 73, 70, 70] ++ chunkSize ++ [87, 65, 86, 69] ++
        [102, 109, 116, 32] ++ subchunk1Size ++ audioFormat ++ numChannels ++
        sampleRate ++ byteRate ++ blockAlign ++ bitsPerSample ++
        [100, 97, 116, 97] ++ dataSize)

/-! ## The WebSocket streaming loop (`app/api/frame_endpoints.py`, lines 634-758)

One iteration of `audio_streaming_task`'s `while True` body, for the
non-stem branch (the stem branch has the identical control structure).
The loop's control state is the playback cursor `current_position` and the
`is_playing` flag; `len` is the length of the loaded, length-aligned
session audio.  The PCM arithmetic inside a chunk (blend, gain, clip,
16-bit conversion) does not influence the control flow or the message
types, so messages carry only their metadata. -/

/-- The mutable control state of one streaming task. -/
structure StreamState where
  position : ℕ
  playing : Bool
deriving DecidableEq

/-- The WebSocket messages the streaming loop can send (metadata only;
the binary PCM payload is summarised by its byte length). -/
inductive StreamMsg where
  | audio_chunk (position : ℚ) (chunk_bytes : ℕ)
  | binary_chunk (chunk_bytes : ℕ)
  | playback_ended (position : ℚ)
deriving DecidableEq

/-- Whether a message is the `{"type": "playback_ended"}` event. -/
def isPlaybackEnded : StreamMsg → Bool
  | StreamMsg.playback_ended _ => true
  | _ => false

/-- One iteration of the streaming loop body: if playing and the cursor is
before the end, slice a 4096-sample chunk; an empty slice would emit
`playback_ended` and stop, a non-empty slice emits the metadata frame and
the binary frame and advances the cursor; otherwise (paused, or cursor at
the end) the loop only sleeps. -/
def audio_streaming_step (len channels : ℕ) (st : StreamState) :
    List StreamMsg × StreamState :=
  if st.playing = true ∧ st.position < len then
    let endSample := min (st.position + 4096) len
    let chunkLen := endSample - st.position
    if chunkLen = 0 then
      ([StreamMsg.playback_ended 1], { st with playing := false })
    else
      ([StreamMsg.audio_chunk ((st.position : ℚ) / (len : ℚ)) (chunkLen * channels * 2),
        StreamMsg.binary_chunk (chunkLen * channels * 2)],
       { st with position := endSample })
  else ([], st)

/-! ## Crossfade windows

`CrossfadeGenerator` in `frame_algorithms.py` (lines 48-83) and
`FrameBasedProcessor._create_crossfade_window` in `frame_processor.py`
(lines 277-283).  `np.linspace(a, b, n)` yields `a + (b-a)*i/(n-1)` for
`i < n` (and `[a]` when `n = 1`). -/

noncomputable section

/-- `np.linspace(a, b, n)` evaluated at index `i`. -/
def linspace (a b : ℝ) (n i : ℕ) : ℝ :=
  if n ≤ 1 then a else a + (b - a) * i / ((n : ℝ) - 1)

/-- `CrossfadeGenerator.raised_cosine`: the fade-out window
`cos(t * 0.5) ** 2` over `t = np.linspace(0, pi, length)`. -/
def raisedCosineFadeOut (length i : ℕ) : ℝ :=
  Real.cos (linspace 0 Real.pi length i * (1 / 2)) ^ 2

/-- `CrossfadeGenerator.raised_cosine`: the fade-in window
`sin(t * 0.5) ** 2` over `t = np.linspace(0, pi, length)`. -/
def raisedCosineFadeIn (length i : ℕ) : ℝ :=
  Real.sin (linspace 0 Real.pi length i * (1 / 2)) ^ 2

/-- `CrossfadeGenerator.linear`: fade-out `np.linspace(1.0, 0.0, length)`. -/
def linearFadeOut (length i : ℕ) : ℝ := linspace 1 0 length i

/-- `CrossfadeGenerator.linear`: fade-in `np.linspace(0.0, 1.0, length)`. -/
def linearFadeIn (length i : ℕ) : ℝ := linspace 0 1 length i

/-- `FrameBasedProcessor._create_crossfade_window(size)`: `np.ones(size)`
when `size <= 1`, else `0.5 * (1 - np.cos(np.pi * np.linspace(0, 1, size)))`,
evaluated at index `i`. -/
def createCrossfadeWindow (size i : ℕ) : ℝ :=
  if size ≤ 1 then 1 else (1 / 2) * (1 - Real.cos (Real.pi * linspace 0 1 size i))

/-! ## Frame segmentation and overlap-add reconstruction
(`frame_algorithms.py`, `FrameConfig` lines 16-33, `AudioFrameSegmenter`
lines 86-227).  Signals are mono `List ℝ` (the stereo code path applies
the same arithmetic to each column). -/

/-- The crossfade types dispatched on in `_apply_crossfade` (the
`crossfade_type` strings `"raised_cosine"`, `"linear"`, `"none"`). -/
inductive CrossfadeType where
  | raised_cosine
  | linear
  | none
deriving DecidableEq

/-- The `FrameConfig` dataclass of `frame_algorithms.py`. -/
structure FrameConfig where
  name : String
  full_frame_size : ℕ
  overlap_size : ℕ
  crossfade_type : CrossfadeType
  description : String

/-- `FrameConfig.hop_size`: the non-overlapping advance,
`full_frame_size - overlap_size`. -/
def FrameConfig.hop_size (cfg : FrameConfig) : ℕ :=
  cfg.full_frame_size - cfg.overlap_size

/-- The `FrameInfo` dataclass: per-frame metadata from `segment_audio`. -/
structure FrameInfo where
  index : ℕ
  start_sample : ℕ
  end_sample : ℕ
  actual_size : ℕ
  needs_crossfade_start : Bool
  needs_crossfade_end : Bool
  is_last_frame : Bool

/-- The `while current_start < audio_length` loop of `segment_audio`
(lines 118-151).  The loop advances `current_start` by `hop_size` each
iteration, so with a positive hop it runs at most `audio.length` times;
`fuel` bounds the iteration count (with `hop_size = 0` the Python loop
would not terminate, and no theorem below concerns that case). -/
def segLoop (cfg : FrameConfig) (audio : List ℝ) (fuel start idx : ℕ) :
    List (List ℝ × FrameInfo) :=
  if fuel = 0 then []
  else if start < audio.length then
    let fend := min (start + cfg.full_frame_size) audio.length
    let data := (audio.drop start).take (fend - start)
    let info : FrameInfo :=
      { index := idx, start_sample := start, end_sample := fend,
        actual_size := fend - start,
        needs_crossfade_start := decide (0 < start),
        needs_crossfade_end := decide (fend < audio.length),
        is_last_frame := decide (audio.length ≤ fend) }
    (data, info) :: segLoop cfg audio (fuel - 1) (start + cfg.hop_size) (idx + 1)
  else []
termination_by fuel
decreasing_by omega

/-- `AudioFrameSegmenter.segment_audio` (lines 92-153): a signal no longer
than one frame becomes a single frame; otherwise frames start at
`0, hop, 2*hop, ...` while the start is inside the signal. -/
def segment_audio (cfg : FrameConfig) (audio : List ℝ) :
    List (List ℝ × FrameInfo) :=
  if audio.length ≤ cfg.full_frame_size then
    [(audio,
      { index := 0, start_sample := 0, end_sample := audio.length,
        actual_size := audio.length, needs_crossfade_start := false,
        needs_crossfade_end := false, is_last_frame := true })]
  else segLoop cfg audio audio.length 0 0

/-- `AudioFrameSegmenter._apply_crossfade` (lines 204-227): on a
recognised crossfade type with a nonzero overlap, when the frame needs a
trailing crossfade and is at least `overlap_size` long, the last
`overlap_size` samples are multiplied elementwise by the fade-out
window. -/
def applyCrossfade (cfg : FrameConfig) (data : List ℝ) (fi : FrameInfo) :
    List ℝ :=
  if cfg.crossfade_type = CrossfadeType.none ∨ cfg.overlap_size = 0 then data
  else
    let fadeOut : ℕ → ℝ :=
      match cfg.crossfade_type with
      | CrossfadeType.raised_cosine => raisedCosineFadeOut cfg.overlap_size
      | CrossfadeType.linear => linearFadeOut cfg.overlap_size
      | CrossfadeType.none => fun _ => 1
    if fi.needs_crossfade_end = true ∧ cfg.overlap_size ≤ data.length then
      data.take (data.length - cfg.overlap_size) ++
        List.zipWith (fun x w => x * w) (data.drop (data.length - cfg.overlap_size))
          ((List.range cfg.overlap_size).map fadeOut)
    else data

/-- What one iteration of `reconstruct_audio`'s loop (lines 178-200) adds
to output index `i`: the frame is trimmed to the output bound, crossfaded
when the overlap is nonzero and the frame is not last, and added over
`[start_sample, end_pos)`. -/
def frameContrib (cfg : FrameConfig) (origLen : ℕ) (p : List ℝ × FrameInfo)
    (i : ℕ) : ℝ :=
  let startPos := p.2.start_sample
  let endPos := min (startPos + p.1.length) origLen
  if endPos ≤ startPos then 0
  else
    let trimmed := p.1.take (endPos - startPos)
    let faded :=
      if 0 < cfg.overlap_size ∧ p.2.is_last_frame = false then
        applyCrossfade cfg trimmed p.2
      else trimmed
    if startPos ≤ i ∧ i < endPos then faded.getD (i - startPos) 0 else 0

/-- `AudioFrameSegmenter.reconstruct_audio` (lines 155-202): a
zero-initialised buffer of the original length accumulates every
processed frame's (trimmed, crossfaded) samples at its start offset.
The buffer is modelled as a function from sample index to value. -/
def reconstruct_audio (cfg : FrameConfig) (frames : List (List ℝ × FrameInfo))
    (origLen : ℕ) : ℕ → ℝ :=
  frames.foldl (fun out p => fun i => out i + frameContrib cfg origLen p i)
    (fun _ => 0)

/-- Mean-squared error between a signal and a reconstruction, the quality
measure used by the repository's round-trip checks
(`np.mean((x - reconstructed)**2)`). -/
def mseList (x : List ℝ) (y : ℕ → ℝ) : ℝ :=
  (∑ i ∈ Finset.range x.length, (x.getD i 0 - y i) ^ 2) / (x.length : ℝ)

/-! ## dB-to-linear gain

`10 ** (db / 20.0)`, as computed in `process_channel`,
`FrameAwareLimiter.process_frame` and `_process_with_limiting`. -/

/-- Linear gain factor for a decibel value: `10 ** (db / 20.0)`. -/
def gainLinear (db : ℚ) : ℝ := (10 : ℝ) ^ (((db : ℝ)) / 20)

/-! ## The frame-aware limiter (`frame_aware_limiter.py`)

`LimiterConfig` (lines 21-35), the derived sample counts
(`_calculate_sample_parameters`, lines 149-168), the lookahead-buffer
bootstrap of `process_frame` (lines 191-232) and the sliding-window peak
detector with the gain-reduction targets of `_process_with_limiting`
(lines 68-105 and 250-264).  Stereo frames are lists of sample pairs;
`process_frame`'s mono-to-stereo coercion happens before the part
modelled here, so frames arrive already stereo.  The limiting pipeline
downstream of the gain targets (scipy Butterworth smoothing) is kept
abstract: `process_frame` takes it as an explicit function parameter,
and every theorem below holds for an arbitrary such function. -/

/-- The `LimiterConfig` dataclass with its defaults. -/
structure LimiterConfig where
  attack_ms : ℚ := 1
  hold_ms : ℚ := 1
  release_ms : ℚ := 3000
  attack_filter_coefficient : ℚ := -2
  hold_filter_order : ℕ := 1
  hold_filter_coefficient : ℚ := 7
  release_filter_order : ℕ := 1
  release_filter_coefficient : ℚ := 800
  threshold_db : ℚ := -1/10
  sample_rate : ℕ := 44100
  frame_size : ℕ := 4096
  overlap_size : ℕ := 1024

/-- `attack_samples = max(1, int(attack_ms * sr / 1000))`, forced odd
(`_calculate_sample_parameters`). -/
def attackSamples (c : LimiterConfig) : ℕ :=
  let a := max 1 (Int.toNat (Int.floor (c.attack_ms * (c.sample_rate : ℚ) / 1000)))
  if a % 2 = 0 then a + 1 else a

/-- `hold_samples = max(1, int(hold_ms * sr / 1000))`. -/
def holdSamples (c : LimiterConfig) : ℕ :=
  max 1 (Int.toNat (Int.floor (c.hold_ms * (c.sample_rate : ℚ) / 1000)))

/-- `lookahead_size = max(attack_samples, hold_samples)`. -/
def lookaheadSize (c : LimiterConfig) : ℕ :=
  max (attackSamples c) (holdSamples c)

/-- The lookahead buffer created by `reset_state`:
`np.zeros((lookahead_size, channels))` with `channels = 2`. -/
def resetBuffer (c : LimiterConfig) : List (ℝ × ℝ) :=
  List.replicate (lookaheadSize c) ((0 : ℝ), (0 : ℝ))

/-- The pre-limiter gain of `process_frame` (lines 213-215): scale both
channels by `10 ** (gain_adjust_db / 20.0)` when the adjustment is
nonzero. -/
def applyStereoGain (gain_adjust_db : ℚ) (frame : List (ℝ × ℝ)) : List (ℝ × ℝ) :=
  if gain_adjust_db ≠ 0 then
    frame.map (fun s =>
      (s.1 * gainLinear gain_adjust_db, s.2 * gainLinear gain_adjust_db))
  else frame

/-- `FrameAwareLimiter.process_frame` (lines 191-232) together with
`_update_lookahead_buffer` (lines 234-248): apply the pre-limiter gain,
append the frame to the lookahead buffer, trim the buffer from the front
to `lookahead_size + frame_size`, then either limit the first
`frame_size` buffered samples (when enough are buffered) or return the
first `len(audio_frame)` buffered samples unprocessed.  `limiting` stands
for `_process_with_limiting`; the result pairs the returned frame with
the updated buffer. -/
def limiter_process_frame (c : LimiterConfig)
    (limiting : List (ℝ × ℝ) → List (ℝ × ℝ))
    (buffer : List (ℝ × ℝ)) (frame : List (ℝ × ℝ)) (gain_adjust_db : ℚ) :
    List (ℝ × ℝ) × List (ℝ × ℝ) :=
  let gained := applyStereoGain gain_adjust_db frame
  let appended := buffer ++ gained
  let buffered :=
    if lookaheadSize c + c.frame_size < appended.length then
      appended.drop (appended.length - (lookaheadSize c + c.frame_size))
    else appended
  let out :=
    if c.frame_size ≤ buffered.length then limiting (buffered.take c.frame_size)
    else buffered.take frame.length
  (out, buffered)

/-- The state of one `StatefulSlidingWindow` (lines 68-76): a circular
buffer of absolute sample values, the write position, and the filled
flag. -/
structure SlidingWindowState where
  window_size : ℕ
  buffer : List ℝ
  position : ℕ
  filled : Bool

/-- `np.max` of a nonempty array (the empty case cannot arise: the scanned
slice always has at least one element). -/
def npMax : List ℝ → ℝ
  | [] => 0
  | x :: xs => xs.foldl max x

/-- One iteration of `StatefulSlidingWindow.process`'s loop (lines 89-103):
write `abs(sample)` at the current position, advance the position
circularly, update `filled`, and report the maximum of the window (of the
filled portion while warming up). -/
def slidingWindowStep (st : SlidingWindowState) (sample : ℝ) :
    ℝ × SlidingWindowState :=
  let buf := st.buffer.set st.position |sample|
  let pos := (st.position + 1) % st.window_size
  let filled := st.filled || decide (pos = 0)
  let out :=
    if filled = true then npMax buf
    else npMax (buf.take (if 0 < pos then pos else st.window_size))
  (out, { st with buffer := buf, position := pos, filled := filled })

/-- `StatefulSlidingWindow.process`: fold the step over the input samples,
accumulating the per-sample window maxima. -/
def slidingWindowProcess (st : SlidingWindowState) (samples : List ℝ) :
    List ℝ × SlidingWindowState :=
  samples.foldl (fun acc s =>
    let r := slidingWindowStep acc.2 s
    (acc.1 ++ [r.1], r.2)) ([], st)

/-- Step 2 of `_process_with_limiting` (lines 262-264): the per-sample
gain-reduction target
`np.minimum(1.0, threshold_linear / (peaks + 1e-10))` with
`threshold_linear = 10 ** (threshold_db / 20.0)`. -/
def gainReductionTargets (threshold_db : ℚ) (peaks : List ℝ) : List ℝ :=
  peaks.map (fun p => min 1 (gainLinear threshold_db / (p + 1e-10)))

/-! ## The channel processor (`app/audio/channel_processor.py`)

`process_channel` (lines 18-99) and `_align_audio_arrays` (lines 102-137).
The two `sf.read` results are passed in directly (a 1-D mono array or a
2-D samples-by-channels array) together with their sample rates; the
file-existence checks concern the filesystem and are elided. -/

/-- An `sf.read` result: a 1-D mono array or a 2-D array of sample rows. -/
inductive SoundData where
  | mono (samples : List ℝ)
  | multi (rows : List (List ℝ))

/-- `np.expand_dims(audio, axis=1)` for 1-D input; 2-D input unchanged. -/
def to2d : SoundData → List (List ℝ)
  | SoundData.mono xs => xs.map (fun x => [x])
  | SoundData.multi rows => rows

/-- `audio.shape[1]` of a 2-D array modelled as its rows. -/
def channelCount (rows : List (List ℝ)) : ℕ := (rows.headD []).length

/-- `np.mean(audio, axis=1, keepdims=True)`: average each row to one
channel. -/
def downmixMono (rows : List (List ℝ)) : List (List ℝ) :=
  rows.map (fun r => [r.sum / (r.length : ℝ)])

/-- Zero-pad a 2-D array at the end to `len` rows of `ch` channels
(`np.pad(..., 'constant')`). -/
def padRows (rows : List (List ℝ)) (len ch : ℕ) : List (List ℝ) :=
  rows ++ List.replicate (len - rows.length) (List.replicate ch 0)

/-- `_align_audio_arrays`: promote to 2-D, reconcile differing channel
counts by downmixing the multi-channel side(s) to mono, and zero-pad the
shorter array to the longer length. -/
def align_audio_arrays (a b : SoundData) : List (List ℝ) × List (List ℝ) :=
  let a2 := to2d a
  let b2 := to2d b
  let p :=
    if channelCount a2 ≠ channelCount b2 then
      (if 1 < channelCount a2 then downmixMono a2 else a2,
       if 1 < channelCount b2 then downmixMono b2 else b2)
    else (a2, b2)
  let maxLen := max p.1.length p.2.length
  (padRows p.1 maxLen (channelCount p.1), padRows p.2 maxLen (channelCount p.2))

/-- `process_channel(original, processed, output, blend_ratio,
volume_adjust_db, mute)`: validate the parameter ranges, require matching
sample rates, align the arrays, then either output silence (mute) or the
blend `original*(1-r) + processed*r` scaled by `10**(volume_adjust_db/20)`
when the adjustment is nonzero.  The returned rows are the array written
to the output file. -/
def process_channel (original processed : SoundData) (sr_orig sr_proc : ℕ)
    (blend_r volume_adjust_db : ℚ) (mute : Bool) :
    Except String (List (List ℝ)) :=
  if ¬ (0 ≤ blend_r ∧ blend_r ≤ 1) then
    Except.error "ValueError: Blend ratio must be between 0.0 and 1.0"
  else if ¬ (-12 ≤ volume_adjust_db ∧ volume_adjust_db ≤ 12) then
    Except.error "ValueError: Volume adjustment must be between -12.0dB and +12.0dB"
  else if sr_orig ≠ sr_proc then
    Except.error "RuntimeError: Sample rates do not match"
  else
    let ab := align_audio_arrays original processed
    let outRows :=
      if mute = true then ab.1.map (fun r => r.map (fun _ => (0 : ℝ)))
      else
        let blended := List.zipWith
          (fun ro rp => List.zipWith
            (fun x y => x * (1 - (blend_r : ℝ)) + y * (blend_r : ℝ)) ro rp)
          ab.1 ab.2
        if volume_adjust_db ≠ 0 then
          blended.map (fun r => r.map (fun x => x * gainLinear volume_adjust_db))
        else blended
    Except.ok outRows

/-- Two 2-D arrays of equal shape (equal row count and pointwise equal
row lengths) — the shape numpy requires for elementwise arithmetic. -/
def sameShape (a b : List (List ℝ)) : Prop :=
  a.length = b.length ∧ ∀ i, (a.getD i []).length = (b.getD i []).length

end

/-! ## Theorems -/

/-- C2: the claim asserts that constructing a `FrameBasedProcessor`
succeeds and leaves it holding a `FrameConfig` with `frame_size = 4096`,
overlap `1024` and crossfade `"raised_cosine"`.  In the code, however,
`__init__` calls `FrameConfig(frame_size=..., overlap_ratio=...,
crossfade_type=...)` while the imported dataclass's fields are
`name, full_frame_size, overlap_size, crossfade_type, description`, so
the call raises `TypeError` and construction fails for every sample
rate. -/
theorem frame_based_processor_init_raises (sample_rate : ℕ) :
    frame_based_processor_init sample_rate =
      Except.error "TypeError: FrameConfig() got an unexpected keyword argument" :=
  rfl

/-- C8 (counterexample): the claim quantifies over every non-negative
sample count, but at `num_samples = 2^31` (mono) the data size is `2^32`
and `struct.pack`'s `I` range check raises instead of returning a 44-byte
header. -/
theorem create_wav_header_overflow_raises :
    create_wav_header 2147483648 44100 1 =
      Except.error "struct.error: argument out of range" :=
  rfl

/-- C8 (amended): whenever every derived header field fits its `struct`
format range, `create_wav_header` returns exactly 44 bytes laid out as
`'RIFF'`, chunk size = data size + 36, `'WAVE'`, `'fmt '` with subchunk
size 16, PCM tag 1, the channel count, the sample rate, byte rate
`= sr*channels*2`, block align `= channels*2`, 16 bits per sample,
`'data'`, and data size `= samples*channels*2` (all multi-byte fields
little-endian). -/
theorem create_wav_header_layout (num_samples sample_rate channels : ℕ)
    (h1 : num_samples * channels * 2 + 36 < 4294967296)
    (h2 : sample_rate < 4294967296)
    (h3 : sample_rate * channels * 2 < 4294967296)
    (h4 : channels * 2 < 65536) :
    create_wav_header num_samples sample_rate channels =
      Except.ok ([82, 73, 70, 70] ++ u32le (num_samples * channels * 2 + 36) ++
        [87, 65, 86, 69] ++ [102, 109, 116, 32] ++ u32le 16 ++ u16le 1 ++
        u16le channels ++ u32le sample_rate ++
        u32le (sample_rate * channels * 2) ++ u16le (channels * 2) ++
        u16le 16 ++ [100, 97, 116, 97] ++ u32le (num_samples * channels * 2)) ∧
    ([82, 73, 70, 70] ++ u32le (num_samples * channels * 2 + 36) ++
        [87, 65, 86, 69] ++ [102, 109, 116, 32] ++ u32le 16 ++ u16le 1 ++
        u16le channels ++ u32le sample_rate ++
        u32le (sample_rate * channels * 2) ++ u16le (channels * 2) ++
        u16le 16 ++ [100, 97, 116, 97] ++
        u32le (num_samples * channels * 2)).length = 44 := by
  have hch : channels < 65536 := by omega
  have hds : num_samples * channels * 2 < 4294967296 := by omega
  refine ⟨?_, ?_⟩
  · simp only [create_wav_header, packU32, packU16, bind, Except.bind,
      if_pos h1, if_pos h2, if_pos h3, if_pos h4, if_pos hch, if_pos hds,
      if_pos (show (16 : ℕ) < 4294967296 by norm_num),
      if_pos (show (1 : ℕ) < 65536 by norm_num),
      if_pos (show (16 : ℕ) < 65536 by norm_num)]
    rfl
  · simp [u32le, u16le]

/-- C8 (witness for the amended layout theorem): the header for 1000
16-bit samples at 44100 Hz stereo. -/
theorem create_wav_header_layout_witness :
    (1000 * 2 * 2 + 36 < 4294967296 ∧ 44100 < 4294967296 ∧
      44100 * 2 * 2 < 4294967296 ∧ 2 * 2 < 65536) ∧
    create_wav_header 1000 44100 2 =
      Except.ok ([82, 73, 70, 70] ++ u32le (1000 * 2 * 2 + 36) ++
        [87, 65, 86, 69] ++ [102, 109, 116, 32] ++ u32le 16 ++ u16le 1 ++
        u16le 2 ++ u32le 44100 ++ u32le (44100 * 2 * 2) ++ u16le (2 * 2) ++
        u16le 16 ++ [100, 97, 116, 97] ++ u32le (1000 * 2 * 2)) :=
  ⟨by norm_num,
   (create_wav_header_layout 1000 44100 2 (by norm_num) (by norm_num)
      (by norm_num) (by norm_num)).1⟩

/-- C6: the spec says that when the playback cursor reaches the end the
streaming task emits `{"type":"playback_ended","position":1.0}` and stops
advancing.  In the code the emission is guarded by
`current_position < len(original_audio)` together with an empty-chunk
check, which can never both hold, so no iteration of the loop ever emits
`playback_ended`; with the cursor at the end the loop takes the idle
branch, sending nothing and leaving the state (including `is_playing`)
unchanged. -/
theorem audio_streaming_never_emits_playback_ended (len channels : ℕ)
    (st : StreamState) :
    ((audio_streaming_step len channels st).1.filter isPlaybackEnded) = [] ∧
    audio_streaming_step len channels { position := len, playing := true } =
      ([], { position := len, playing := true }) := by
  constructor
  · unfold audio_streaming_step
    by_cases h : st.playing = true ∧ st.position < len
    · rw [if_pos h]
      have hm : st.position < min (st.position + 4096) len :=
        lt_min (by omega) h.2
      rw [if_neg (by omega)]
      simp [isPlaybackEnded]
    · rw [if_neg h]
      rfl
  · unfold audio_streaming_step
    rw [if_neg (by simp)]

/-- C7: while a `process_single` job for content hash `h` is active
(inserted by `start_job`, not yet removed by `finish_job`), a second
submission of the same content is rejected with HTTP 429; after
`finish_job` has removed the `"process_single_{h}"` key, a resubmission
is admitted again. -/
theorem duplicate_submission_rejected (st : ServerJobs) (j1 j2 j3 h : String)
    (hk : jobKey j1 "process_single" (some h) ∉ st.active_jobs) :
    (start_job st j1 "process_single" (some h)).1 = true ∧
    process_single_admission (start_job st j1 "process_single" (some h)).2 j2 h =
      Except.error 429 ∧
    (process_single_admission
        (finish_job (start_job st j1 "process_single" (some h)).2 j1) j3 h).isOk =
      true := by
  have hstart :
      start_job st j1 "process_single" (some h) =
        (true,
          { active_jobs := jobKey j1 "process_single" (some h) :: st.active_jobs,
            processing_progress := fun j =>
              if j = j1 then
                some { stage := "starting",
                       message := "Starting " ++ "process_single" ++ "...",
                       progress := 0,
                       job_key := some (jobKey j1 "process_single" (some h)) }
              else st.processing_progress j }) := by
    unfold start_job
    rw [if_neg hk]
  have hmem : jobKey j2 "process_single" (some h) ∈
      (jobKey j1 "process_single" (some h) :: st.active_jobs : List String) :=
    List.mem_cons_self _ _
  have hfin :
      finish_job (start_job st j1 "process_single" (some h)).2 j1 =
        { active_jobs := st.active_jobs,
          processing_progress :=
            (start_job st j1 "process_single" (some h)).2.processing_progress } := by
    rw [hstart]
    unfold finish_job
    dsimp only
    rw [if_pos rfl]
    dsimp only
    rw [if_pos (List.mem_cons_self _ _), List.erase_cons_head]
  refine ⟨by rw [hstart], ?_, ?_⟩
  · rw [hstart]
    unfold process_single_admission start_job
    dsimp only
    rw [if_pos hmem]
    rfl
  · rw [hfin]
    unfold process_single_admission start_job
    dsimp only
    rw [if_neg (show jobKey j3 "process_single" (some h) ∉ st.active_jobs from hk)]
    rfl

/-- A zipWith whose function ignores its second argument, on
equal-length lists, returns the first list. -/
theorem zipWith_proj_left (f : ℝ → ℝ → ℝ) (hf : ∀ x y, f x y = x) :
    ∀ (l1 l2 : List ℝ), l1.length = l2.length → List.zipWith f l1 l2 = l1 := by
  intro l1
  induction l1 with
  | nil => intro l2 _; simp
  | cons x t ih =>
    intro l2 h
    cases l2 with
    | nil => simp at h
    | cons y t2 =>
      simp only [List.zipWith_cons_cons, hf]
      rw [ih t2 (by simpa using h)]

/-- A zipWith whose function ignores its first argument, on equal-length
lists, returns the second list. -/
theorem zipWith_proj_right (f : ℝ → ℝ → ℝ) (hf : ∀ x y, f x y = y) :
    ∀ (l1 l2 : List ℝ), l1.length = l2.length → List.zipWith f l1 l2 = l2 := by
  intro l1
  induction l1 with
  | nil =>
    intro l2 h
    cases l2 with
    | nil => simp
    | cons y t2 => simp at h
  | cons x t ih =>
    intro l2 h
    cases l2 with
    | nil => simp at h
    | cons y t2 =>
      simp only [List.zipWith_cons_cons, hf]
      rw [ih t2 (by simpa using h)]

/-- Row-wise zipWith of a left projection over same-shape 2-D arrays. -/
theorem zipWith_rows_proj_left (f : ℝ → ℝ → ℝ) (hf : ∀ x y, f x y = x) :
    ∀ (a b : List (List ℝ)), a.length = b.length →
      (∀ i, (a.getD i []).length = (b.getD i []).length) →
      List.zipWith (fun ro rp => List.zipWith f ro rp) a b = a := by
  intro a
  induction a with
  | nil => intro b _ _; simp
  | cons r t ih =>
    intro b hl hrow
    cases b with
    | nil => simp at hl
    | cons r2 t2 =>
      simp only [List.zipWith_cons_cons]
      rw [zipWith_proj_left f hf r r2 (by simpa using hrow 0),
          ih t2 (by simpa using hl) (fun i => by simpa using hrow (i + 1))]

/-- Row-wise zipWith of a right projection over same-shape 2-D arrays. -/
theorem zipWith_rows_proj_right (f : ℝ → ℝ → ℝ) (hf : ∀ x y, f x y = y) :
    ∀ (a b : List (List ℝ)), a.length = b.length →
      (∀ i, (a.getD i []).length = (b.getD i []).length) →
      List.zipWith (fun ro rp => List.zipWith f ro rp) a b = b := by
  intro a
  induction a with
  | nil =>
    intro b hl _
    cases b with
    | nil => simp
    | cons r2 t2 => simp at hl
  | cons r t ih =>
    intro b hl hrow
    cases b with
    | nil => simp at hl
    | cons r2 t2 =>
      simp only [List.zipWith_cons_cons]
      rw [zipWith_proj_right f hf r r2 (by simpa using hrow 0),
          ih t2 (by simpa using hl) (fun i => by simpa using hrow (i + 1))]

/-- `_align_audio_arrays` is the identity on a same-shape pair of 2-D
arrays: equal channel counts mean no downmix, equal lengths mean no
padding. -/
theorem align_eq_of_sameShape (a b : List (List ℝ)) (hs : sameShape a b) :
    align_audio_arrays (SoundData.multi a) (SoundData.multi b) = (a, b) := by
  obtain ⟨hl, hrow⟩ := hs
  have hch : channelCount a = channelCount b := by
    cases a with
    | nil =>
      cases b with
      | nil => rfl
      | cons r2 t2 => simp at hl
    | cons r t =>
      cases b with
      | nil => simp at hl
      | cons r2 t2 => simpa [channelCount] using hrow 0
  unfold align_audio_arrays to2d
  dsimp only
  rw [if_neg (by simp [hch])]
  dsimp only
  simp [padRows, hl]

/-- C4 (amended): for same-shape dry/wet arrays at equal sample rates and
zero volume adjustment, `process_channel` with `blend_ratio = 0`
reproduces the dry array exactly and `blend_ratio = 1` reproduces the wet
array exactly; and for every in-range blend ratio and volume adjustment,
`mute = True` yields the all-zero array of the dry array's shape. -/
theorem process_channel_identities (a b : List (List ℝ)) (sr : ℕ) (hs : sameShape a b) :
    process_channel (SoundData.multi a) (SoundData.multi b) sr sr 0 0 false =
      Except.ok a ∧
    process_channel (SoundData.multi a) (SoundData.multi b) sr sr 1 0 false =
      Except.ok b ∧
    ∀ r g : ℚ, 0 ≤ r → r ≤ 1 → -12 ≤ g → g ≤ 12 →
      process_channel (SoundData.multi a) (SoundData.multi b) sr sr r g true =
        Except.ok (a.map (fun row => row.map (fun _ => (0:ℝ)))) := by
  have hal : align_audio_arrays (SoundData.multi a) (SoundData.multi b) = (a, b) :=
    align_eq_of_sameShape a b hs
  obtain ⟨hl, hrow⟩ := hs
  refine ⟨?_, ?_, ?_⟩
  · unfold process_channel
    rw [if_neg (by norm_num), if_neg (by norm_num), if_neg (by simp)]
    dsimp only
    rw [hal]
    dsimp only
    rw [if_neg (by norm_num), if_neg (by norm_num)]
    rw [zipWith_rows_proj_left _ (fun x y => by push_cast; ring) a b hl hrow]
  · unfold process_channel
    rw [if_neg (by norm_num), if_neg (by norm_num), if_neg (by simp)]
    dsimp only
    rw [hal]
    dsimp only
    rw [if_neg (by norm_num), if_neg (by norm_num)]
    rw [zipWith_rows_proj_right _ (fun x y => by push_cast; ring) a b hl hrow]
  · intro r g hr0 hr1 hg0 hg1
    unfold process_channel
    rw [if_neg (not_not.mpr ⟨hr0, hr1⟩), if_neg (not_not.mpr ⟨hg0, hg1⟩),
        if_neg (by simp)]
    dsimp only
    rw [hal]
    dsimp only
    rw [if_pos rfl]

/-- C4 (witness): the identities on a concrete one-row stereo pair. -/
theorem process_channel_identities_witness :
    sameShape [[(1:ℝ), 2]] [[(3:ℝ), 4]] ∧
    process_channel (SoundData.multi [[(1:ℝ), 2]]) (SoundData.multi [[(3:ℝ), 4]])
        44100 44100 0 0 false = Except.ok [[(1:ℝ), 2]] := by
  have hs : sameShape [[(1:ℝ), 2]] [[(3:ℝ), 4]] := by
    refine ⟨rfl, ?_⟩
    intro i
    match i with
    | 0 => rfl
    | n + 1 => rfl
  exact ⟨hs, (process_channel_identities _ _ 44100 hs).1⟩

/-- C4 (counterexample): the claim quantifies the blend identities over
every in-range gain, but at `volume_adjust_db = 12` and
`blend_ratio = 0` the dry sample `1` comes back as
`10^(12/20) ≈ 3.98`, which differs from the dry signal by far more than
the 1e-4 codec tolerance. -/
theorem process_channel_gain_breaks_identity :
    process_channel (SoundData.mono [1]) (SoundData.mono [1]) 44100 44100 0 12 false =
      Except.ok [[gainLinear 12]] ∧ (1e-4 : ℝ) < |gainLinear 12 - 1| := by
  constructor
  · unfold process_channel
    rw [if_neg (by norm_num), if_neg (by norm_num), if_neg (by simp)]
    dsimp only
    norm_num [align_audio_arrays, to2d, channelCount, padRows]
  · have h1 : ((12:ℚ):ℝ) / 20 = 3 / 5 := by norm_num
    have h2 : (10:ℝ) ^ ((1:ℝ)/2) ≤ (10:ℝ) ^ ((3:ℝ)/5) :=
      (Real.rpow_le_rpow_left_iff (by norm_num : (1:ℝ) < 10)).mpr (by norm_num)
    have h3 : Real.sqrt 10 = (10:ℝ) ^ ((1:ℝ)/2) := Real.sqrt_eq_rpow 10
    have h4 : (3:ℝ) ≤ Real.sqrt 10 := by
      nlinarith [Real.sq_sqrt (by norm_num : (0:ℝ) ≤ 10), Real.sqrt_nonneg 10]
    have h5 : (3:ℝ) ≤ (10:ℝ) ^ ((3:ℝ)/5) := by
      rw [h3] at h4
      linarith
    unfold gainLinear
    rw [h1]
    rw [abs_of_nonneg (by linarith)]
    linarith

/-- The pre-limiter gain stage preserves the frame length. -/
theorem applyStereoGain_length (g : ℚ) (frame : List (ℝ × ℝ)) :
    (applyStereoGain g frame).length = frame.length := by
  unfold applyStereoGain
  split <;> simp

/-- C3 (counterexample): the claim says the bootstrap branch returns the
input frame itself.  With `sample_rate = 1000` (lookahead 1 sample),
`frame_size = 4` and a 2-sample frame `[(1,1),(1,1)]` at 0 dB, the
buffered data is `[(0,0),(1,1),(1,1)]` (the reset-state zeros followed by
the frame) and the branch returns its first 2 samples `[(0,0),(1,1)]`,
not the input frame. -/
theorem limiter_bootstrap_not_input_frame :
    (limiter_process_frame
        { sample_rate := 1000, frame_size := 4, overlap_size := 1 } id
        (resetBuffer { sample_rate := 1000, frame_size := 4, overlap_size := 1 })
        [((1:ℝ), (1:ℝ)), (1, 1)] 0).1 ≠
      [((1:ℝ), (1:ℝ)), (1, 1)] := by
  have hla : lookaheadSize { sample_rate := 1000, frame_size := 4, overlap_size := 1 } = 1 := by
    norm_num [lookaheadSize, attackSamples, holdSamples]
  unfold limiter_process_frame applyStereoGain
  simp only [resetBuffer, hla]
  norm_num

/-- C3 (amended): in the bootstrap case (the lookahead buffer holds fewer
than `frame_size` samples after the frame is appended), `process_frame`
returns the first `len(frame)` samples of the lookahead buffer — the
reset-state zeros followed by the leading samples of the gain-adjusted
input — and the limiting stage is not applied (the result is independent
of the `limiting` function). -/
theorem limiter_bootstrap_returns_buffer_head (c : LimiterConfig)
    (limiting : List (ℝ × ℝ) → List (ℝ × ℝ)) (frame : List (ℝ × ℝ)) (g : ℚ)
    (h : lookaheadSize c + frame.length < c.frame_size) :
    (limiter_process_frame c limiting (resetBuffer c) frame g).1 =
      (resetBuffer c ++ applyStereoGain g frame).take frame.length := by
  unfold limiter_process_frame
  have hlen : (resetBuffer c ++ applyStereoGain g frame).length =
      lookaheadSize c + frame.length := by
    simp [resetBuffer, applyStereoGain_length]
  have h1 : ¬ (lookaheadSize c + c.frame_size <
      (resetBuffer c ++ applyStereoGain g frame).length) := by
    rw [hlen]; omega
  have h2 : ¬ (c.frame_size ≤ (resetBuffer c ++ applyStereoGain g frame).length) := by
    rw [hlen]; omega
  dsimp only
  rw [if_neg h1, if_neg h2]

/-- C3 (witness): the default limiter configuration (lookahead 45
samples, frame size 4096) fed a single-sample frame. -/
theorem limiter_bootstrap_witness :
    (lookaheadSize ({} : LimiterConfig) + ([((1:ℝ), (1:ℝ))]).length <
        (({} : LimiterConfig)).frame_size) ∧
    (limiter_process_frame ({} : LimiterConfig) id (resetBuffer ({} : LimiterConfig))
        [((1:ℝ), (1:ℝ))] 0).1 =
      (resetBuffer ({} : LimiterConfig) ++
          applyStereoGain 0 [((1:ℝ), (1:ℝ))]).take ([((1:ℝ), (1:ℝ))]).length :=
  ⟨by norm_num [lookaheadSize, attackSamples, holdSamples]; decide,
   limiter_bootstrap_returns_buffer_head _ _ _ _
     (by norm_num [lookaheadSize, attackSamples, holdSamples]; decide)⟩

/-- C9 (counterexample): at window length 1 the reversal complement fails
for `_create_crossfade_window`: the `size <= 1` branch returns
`np.ones(1)`, so the window plus its sample-reversed copy is `2`, not
`1`, at index 0. -/
theorem crossfade_window_reversal_fails_length_one :
    createCrossfadeWindow 1 0 + createCrossfadeWindow 1 (1 - 1 - 0) ≠ 1 := by
  unfold createCrossfadeWindow
  norm_num

/-- C9 (amended): at every index of every window length, the raised-cosine
pair satisfies `fade_out[i] + fade_in[i] = 1` (cos² plus sin² of the same
argument) and the linear pair satisfies the same; the
`FrameBasedProcessor` raised-cosine window added to its sample-reversed
copy equals one at every index for window lengths at least 2 (a length-1
window is all-ones, so its reversed sum is 2). -/
theorem crossfade_windows_complement (n i : ℕ) (hi : i < n) :
    raisedCosineFadeOut n i + raisedCosineFadeIn n i = 1 ∧
    linearFadeOut n i + linearFadeIn n i = 1 ∧
    (2 ≤ n → createCrossfadeWindow n i + createCrossfadeWindow n (n - 1 - i) = 1) := by
  refine ⟨?_, ?_, ?_⟩
  · unfold raisedCosineFadeOut raisedCosineFadeIn
    rw [add_comm]
    exact Real.sin_sq_add_cos_sq _
  · unfold linearFadeOut linearFadeIn linspace
    by_cases hn : n ≤ 1
    · rw [if_pos hn, if_pos hn]
      norm_num
    · rw [if_neg hn, if_neg hn]
      ring
  · intro hn
    have hn1 : ¬ (n ≤ 1) := by omega
    unfold createCrossfadeWindow linspace
    simp only [if_neg hn1]
    have hd : ((n : ℝ) - 1) ≠ 0 := by
      have h2 : (2 : ℝ) ≤ (n : ℝ) := by exact_mod_cast hn
      linarith
    have hcast : ((n - 1 - i : ℕ) : ℝ) = (n : ℝ) - 1 - (i : ℝ) := by
      have h1 : i ≤ n - 1 := by omega
      have h2 : 1 ≤ n := by omega
      push_cast [Nat.cast_sub h1, Nat.cast_sub h2]
      ring
    rw [hcast]
    have harg : Real.pi * (0 + (1 - 0) * (((n : ℝ) - 1 - (i : ℝ)) / ((n : ℝ) - 1))) =
        Real.pi - Real.pi * (0 + (1 - 0) * ((i : ℝ) / ((n : ℝ) - 1))) := by
      field_simp
      ring
    rw [show (0 : ℝ) + (1 - 0) * (((n : ℝ) - 1 - (i : ℝ))) / ((n : ℝ) - 1) =
          0 + (1 - 0) * (((n : ℝ) - 1 - (i : ℝ)) / ((n : ℝ) - 1)) by ring,
        harg]
    rw [show (0 : ℝ) + (1 - 0) * (i : ℝ) / ((n : ℝ) - 1) =
          0 + (1 - 0) * ((i : ℝ) / ((n : ℝ) - 1)) by ring] at *
    rw [Real.cos_pi_sub]
    ring

/-- C9 (witness): the complement identities at window length 4, index 1. -/
theorem crossfade_windows_complement_witness :
    (1 < 4) ∧
    (raisedCosineFadeOut 4 1 + raisedCosineFadeIn 4 1 = 1 ∧
     linearFadeOut 4 1 + linearFadeIn 4 1 = 1 ∧
     (2 ≤ 4 → createCrossfadeWindow 4 1 + createCrossfadeWindow 4 (4 - 1 - 1) = 1)) :=
  ⟨by norm_num, crossfade_windows_complement 4 1 (by norm_num)⟩

/-- Any initial accumulator is below a `foldl max`. -/
theorem le_foldl_max (l : List ℝ) (a : ℝ) : a ≤ l.foldl max a := by
  induction l generalizing a with
  | nil => exact le_refl a
  | cons b t ih => exact le_trans (le_max_left a b) (ih (max a b))

/-- `np.max` of a list of non-negative values is non-negative. -/
theorem npMax_nonneg (l : List ℝ) (h : ∀ y ∈ l, 0 ≤ y) : 0 ≤ npMax l := by
  cases l with
  | nil => exact le_refl 0
  | cons x t => exact le_trans (h x (List.mem_cons_self x t)) (le_foldl_max t x)

/-- The sliding-window step writes `abs(sample)`, so it preserves
non-negativity of the circular buffer. -/
theorem slidingWindowStep_buffer_nonneg (st : SlidingWindowState) (s : ℝ)
    (h : ∀ y ∈ st.buffer, 0 ≤ y) :
    ∀ y ∈ (slidingWindowStep st s).2.buffer, 0 ≤ y := by
  intro y hy
  unfold slidingWindowStep at hy
  dsimp only at hy
  rcases List.mem_or_eq_of_mem_set hy with h1 | h2
  · exact h y h1
  · rw [h2]
    exact abs_nonneg s

/-- The sliding-window step's reported maximum is non-negative when the
buffer holds non-negative values. -/
theorem slidingWindowStep_out_nonneg (st : SlidingWindowState) (s : ℝ)
    (h : ∀ y ∈ st.buffer, 0 ≤ y) :
    0 ≤ (slidingWindowStep st s).1 := by
  have hbuf : ∀ y ∈ st.buffer.set st.position |s|, 0 ≤ y := by
    intro y hy
    rcases List.mem_or_eq_of_mem_set hy with h1 | h2
    · exact h y h1
    · rw [h2]
      exact abs_nonneg s
  unfold slidingWindowStep
  dsimp only
  split
  · exact npMax_nonneg _ hbuf
  · exact npMax_nonneg _ (fun y hy => hbuf y (List.mem_of_mem_take hy))

/-- The foldl of `StatefulSlidingWindow.process` with an arbitrary output
accumulator. -/
theorem slidingWindowProcess_foldl (ss : List ℝ) :
    ∀ (acc : List ℝ) (st : SlidingWindowState),
      ss.foldl (fun acc s =>
        let r := slidingWindowStep acc.2 s
        (acc.1 ++ [r.1], r.2)) (acc, st) =
      (acc ++ (slidingWindowProcess st ss).1, (slidingWindowProcess st ss).2) := by
  induction ss with
  | nil =>
    intro acc st
    simp [slidingWindowProcess]
  | cons s t ih =>
    intro acc st
    simp only [slidingWindowProcess, List.foldl_cons]
    rw [ih, ih]
    simp

/-- `StatefulSlidingWindow.process` on a cons: first output, then the
process of the tail from the updated state. -/
theorem slidingWindowProcess_cons (st : SlidingWindowState) (s : ℝ) (t : List ℝ) :
    slidingWindowProcess st (s :: t) =
      ((slidingWindowStep st s).1 ::
          (slidingWindowProcess (slidingWindowStep st s).2 t).1,
       (slidingWindowProcess (slidingWindowStep st s).2 t).2) := by
  conv_lhs => unfold slidingWindowProcess
  simp only [List.foldl_cons]
  rw [slidingWindowProcess_foldl]
  simp

/-- Every peak reported by the sliding-window detector is non-negative. -/
theorem slidingWindowProcess_out_nonneg (samples : List ℝ) :
    ∀ st : SlidingWindowState, (∀ y ∈ st.buffer, 0 ≤ y) →
      ∀ p ∈ (slidingWindowProcess st samples).1, 0 ≤ p := by
  induction samples with
  | nil =>
    intro st _ p hp
    simp [slidingWindowProcess] at hp
  | cons s t ih =>
    intro st h p hp
    rw [slidingWindowProcess_cons] at hp
    simp only [List.mem_cons] at hp
    rcases hp with rfl | hp
    · exact slidingWindowStep_out_nonneg st s h
    · exact ih (slidingWindowStep st s).2 (slidingWindowStep_buffer_nonneg st s h) p hp

/-- C10: every element of the gain-reduction target
`min(1.0, threshold_linear / (peak + 1e-10))` computed from the
sliding-window peak detector's output lies in `(0, 1]`: the detector
output is non-negative (it starts from a zero buffer and stores absolute
values) and the linear threshold `10 ** (threshold_db/20)` is strictly
positive, so the pre-smoothing limiter gain never exceeds unity and never
vanishes. -/
theorem gain_reduction_targets_unit_interval (tdb : ℚ) (st : SlidingWindowState)
    (samples : List ℝ) (hbuf : ∀ y ∈ st.buffer, 0 ≤ y) :
    ∀ g ∈ gainReductionTargets tdb (slidingWindowProcess st samples).1,
      0 < g ∧ g ≤ 1 := by
  intro g hg
  unfold gainReductionTargets at hg
  rcases List.mem_map.mp hg with ⟨p, hp, rfl⟩
  have hpnn : 0 ≤ p := slidingWindowProcess_out_nonneg samples st hbuf p hp
  have hthr : 0 < gainLinear tdb := by
    unfold gainLinear
    exact Real.rpow_pos_of_pos (by norm_num) _
  have heps : (0 : ℝ) < 1e-10 := by norm_num
  have hden : 0 < p + 1e-10 := by linarith
  exact ⟨lt_min one_pos (div_pos hthr hden), min_le_left _ _⟩

/-- C10 (witness): the invariant at a freshly reset one-sample window fed
one sample. -/
theorem gain_reduction_targets_unit_interval_witness :
    (∀ y ∈ ([0] : List ℝ), 0 ≤ y) ∧
    ∀ g ∈ gainReductionTargets (-1/10)
        (slidingWindowProcess
          { window_size := 1, buffer := [0], position := 0, filled := false }
          [1/2]).1,
      0 < g ∧ g ≤ 1 :=
  ⟨by simp,
   gain_reduction_targets_unit_interval (-1/10)
     { window_size := 1, buffer := [0], position := 0, filled := false }
     [1/2] (by simp)⟩

/-- C7 (witness): starting from an empty job table, the first submission
of hash `"deadbeef"` is admitted, the second is rejected with 429, and a
submission after `finish_job` is admitted. -/
theorem duplicate_submission_rejected_witness :
    (jobKey "a" "process_single" (some "deadbeef") ∉
        ({ active_jobs := [], processing_progress := fun _ => Option.none } :
          ServerJobs).active_jobs) ∧
    ((start_job { active_jobs := [], processing_progress := fun _ => Option.none }
        "a" "process_single" (some "deadbeef")).1 = true ∧
      process_single_admission
        (start_job { active_jobs := [], processing_progress := fun _ => Option.none }
          "a" "process_single" (some "deadbeef")).2 "b" "deadbeef" =
        Except.error 429 ∧
      (process_single_admission
          (finish_job
            (start_job { active_jobs := [], processing_progress := fun _ => Option.none }
              "a" "process_single" (some "deadbeef")).2 "a") "c" "deadbeef").isOk =
        true) :=
  ⟨by simp,
   duplicate_submission_rejected
     { active_jobs := [], processing_progress := fun _ => Option.none }
     "a" "b" "c" "deadbeef" (by simp)⟩

end Matchering

namespace Matchering

/-- `getD` through `take`, below the cut. -/
theorem getD_take_of_lt (l : List ℝ) (k j : ℕ) (h : j < k) :
    (l.take k).getD j 0 = l.getD j 0 := by
  simp [List.getD_eq_getElem?_getD, List.getElem?_take_of_lt h]

/-- `getD` through `drop`. -/
theorem getD_drop_add (l : List ℝ) (s j : ℕ) :
    (l.drop s).getD j 0 = l.getD (s + j) 0 := by
  simp [List.getD_eq_getElem?_getD, List.getElem?_drop]

/-- The overlap-add foldl evaluated at one index, with an arbitrary
initial buffer. -/
theorem reconstruct_foldl (cfg : FrameConfig) (L i : ℕ) :
    ∀ (frames : List (List ℝ × FrameInfo)) (g : ℕ → ℝ),
      (frames.foldl (fun out p => fun j => out j + frameContrib cfg L p j) g) i =
        g i + (frames.map (fun p => frameContrib cfg L p i)).sum := by
  intro frames
  induction frames with
  | nil => intro g; simp
  | cons p t ih =>
    intro g
    simp only [List.foldl_cons, List.map_cons, List.sum_cons]
    rw [ih]
    ring

/-- `reconstruct_audio` at one index is the sum of the per-frame
contributions. -/
theorem reconstruct_audio_apply (cfg : FrameConfig)
    (frames : List (List ℝ × FrameInfo)) (L i : ℕ) :
    reconstruct_audio cfg frames L i =
      (frames.map (fun p => frameContrib cfg L p i)).sum := by
  unfold reconstruct_audio
  rw [reconstruct_foldl]
  simp

/-- With zero overlap the frames from the segmentation loop tile the
signal, so their contributions at index `i` sum to the original sample
once the loop has reached `i`. -/
theorem segLoop_sum_no_overlap (cfg : FrameConfig) (x : List ℝ)
    (hV : cfg.overlap_size = 0) (hF : 0 < cfg.full_frame_size) :
    ∀ (fuel start idx i : ℕ), x.length ≤ fuel + start → i < x.length →
      ((segLoop cfg x fuel start idx).map
          (fun p => frameContrib cfg x.length p i)).sum =
        if start ≤ i then x.getD i 0 else 0 := by
  intro fuel
  induction fuel with
  | zero =>
    intro start idx i hfuel hi
    rw [segLoop]
    rw [if_pos rfl]
    simp only [List.map_nil, List.sum_nil]
    rw [if_neg (by omega)]
  | succ f ih =>
    intro start idx i hfuel hi
    rw [segLoop]
    rw [if_neg (by omega : ¬ (f + 1 = 0))]
    by_cases hs : start < x.length
    · rw [if_pos hs]
      dsimp only
      simp only [Nat.add_sub_cancel, List.map_cons, List.sum_cons]
      have hhop : cfg.hop_size = cfg.full_frame_size := by
        unfold FrameConfig.hop_size
        omega
      have hrec := ih (start + cfg.hop_size) (idx + 1) i (by rw [hhop]; omega) hi
      rw [hrec, hhop]
      have hfle : min (start + cfg.full_frame_size) x.length ≤ x.length :=
        min_le_right _ _
      have hflt : start < min (start + cfg.full_frame_size) x.length :=
        lt_min (by omega) hs
      have hfmin : min (start + cfg.full_frame_size) x.length ≤
          start + cfg.full_frame_size := min_le_left _ _
      have hfeq : min (start + cfg.full_frame_size) x.length =
          start + cfg.full_frame_size ∨
          min (start + cfg.full_frame_size) x.length = x.length :=
        min_choice _ _
      have hdlen : ((x.drop start).take
          (min (start + cfg.full_frame_size) x.length - start)).length =
          min (start + cfg.full_frame_size) x.length - start := by
        simp only [List.length_take, List.length_drop]
        omega
      have hcontrib : frameContrib cfg x.length
          ((x.drop start).take (min (start + cfg.full_frame_size) x.length - start),
            { index := idx, start_sample := start,
              end_sample := min (start + cfg.full_frame_size) x.length,
              actual_size := min (start + cfg.full_frame_size) x.length - start,
              needs_crossfade_start := decide (0 < start),
              needs_crossfade_end :=
                decide (min (start + cfg.full_frame_size) x.length < x.length),
              is_last_frame :=
                decide (x.length ≤ min (start + cfg.full_frame_size) x.length) }) i =
          if start ≤ i ∧ i < min (start + cfg.full_frame_size) x.length then
            x.getD i 0
          else 0 := by
        unfold frameContrib
        dsimp only
        rw [hdlen]
        have hend : min (start +
            (min (start + cfg.full_frame_size) x.length - start)) x.length =
            min (start + cfg.full_frame_size) x.length := by
          omega
        rw [hend]
        rw [if_neg (show ¬ (min (start + cfg.full_frame_size) x.length ≤ start) by
          omega)]
        rw [if_neg (show ¬ (0 < cfg.overlap_size ∧
            decide (x.length ≤ min (start + cfg.full_frame_size) x.length) = false) by
          simp [hV])]
        by_cases hcase : start ≤ i ∧ i < min (start + cfg.full_frame_size) x.length
        · rw [if_pos hcase, if_pos hcase]
          rw [List.take_take, min_self]
          rw [getD_take_of_lt (List.drop start x) _ _
            (show i - start < (start + cfg.full_frame_size) ⊓ x.length - start by
              omega)]
          rw [getD_drop_add]
          congr 1
          omega
        · rw [if_neg hcase, if_neg hcase]
      rw [hcontrib]
      by_cases h1 : i < start
      · rw [if_neg (by omega), if_neg (by omega), if_neg (by omega)]
        ring
      · by_cases h2 : i < min (start + cfg.full_frame_size) x.length
        · rw [if_pos ⟨by omega, h2⟩, if_neg (by omega), if_pos (by omega)]
          ring
        · rw [if_neg (by omega), if_pos (by omega), if_pos (by omega)]
          ring
    · rw [if_neg hs]
      simp only [List.map_nil, List.sum_nil]
      rw [if_neg (by omega)]

/-- C5: with zero overlap (hop = frame size) and a positive frame size,
reconstructing the unmodified frames of `segment_audio` returns the
original signal exactly at every index, and the mean-squared error is
zero. -/
theorem zero_overlap_roundtrip (cfg : FrameConfig) (x : List ℝ)
    (hV : cfg.overlap_size = 0) (hF : 0 < cfg.full_frame_size) :
    (∀ i < x.length,
        reconstruct_audio cfg (segment_audio cfg x) x.length i = x.getD i 0) ∧
    mseList x (reconstruct_audio cfg (segment_audio cfg x) x.length) = 0 := by
  have hpt : ∀ i < x.length,
      reconstruct_audio cfg (segment_audio cfg x) x.length i = x.getD i 0 := by
    intro i hi
    rw [reconstruct_audio_apply]
    unfold segment_audio
    by_cases hshort : x.length ≤ cfg.full_frame_size
    · rw [if_pos hshort]
      simp only [List.map_cons, List.map_nil, List.sum_cons, List.sum_nil, add_zero]
      unfold frameContrib
      dsimp only
      simp only [Nat.zero_add, min_self]
      rw [if_neg (show ¬ (x.length ≤ 0) by omega)]
      rw [if_neg (show ¬ (0 < cfg.overlap_size ∧ true = false) by simp [hV])]
      rw [if_pos (show 0 ≤ i ∧ i < x.length from ⟨Nat.zero_le i, hi⟩)]
      rw [Nat.sub_zero, List.take_length, Nat.sub_zero]
    · rw [if_neg hshort]
      rw [segLoop_sum_no_overlap cfg x hV hF x.length 0 0 i (by omega) hi]
      rw [if_pos (Nat.zero_le i)]
  refine ⟨hpt, ?_⟩
  unfold mseList
  rw [Finset.sum_congr rfl (fun i hi => by
    rw [hpt i (Finset.mem_range.mp hi)])]
  simp

/-- C5 (witness): a 3-sample signal with frame size 2 and zero overlap
round-trips exactly. -/
theorem zero_overlap_roundtrip_witness :
    ((⟨"", 2, 0, CrossfadeType.raised_cosine, ""⟩ : FrameConfig).overlap_size = 0 ∧
      0 < (⟨"", 2, 0, CrossfadeType.raised_cosine, ""⟩ : FrameConfig).full_frame_size) ∧
    ((∀ i < ([(1:ℝ), 2, 3]).length,
        reconstruct_audio ⟨"", 2, 0, CrossfadeType.raised_cosine, ""⟩
          (segment_audio ⟨"", 2, 0, CrossfadeType.raised_cosine, ""⟩ [(1:ℝ), 2, 3])
          ([(1:ℝ), 2, 3]).length i = ([(1:ℝ), 2, 3]).getD i 0) ∧
      mseList [(1:ℝ), 2, 3]
        (reconstruct_audio ⟨"", 2, 0, CrossfadeType.raised_cosine, ""⟩
          (segment_audio ⟨"", 2, 0, CrossfadeType.raised_cosine, ""⟩ [(1:ℝ), 2, 3])
          ([(1:ℝ), 2, 3]).length) = 0) :=
  ⟨⟨rfl, by norm_num⟩, zero_overlap_roundtrip _ _ rfl (by norm_num)⟩

end Matchering

namespace Matchering

/-- `getD` through a list append, below the first list's length. -/
theorem getD_append_left_lt (l1 l2 : List ℝ) (j : ℕ) (h : j < l1.length) :
    (l1 ++ l2).getD j 0 = l1.getD j 0 := by
  simp [List.getD_eq_getElem?_getD, List.getElem?_append_left h]

/-- `getD` through a list append, beyond the first list's length. -/
theorem getD_append_right_le (l1 l2 : List ℝ) (j : ℕ) (h : l1.length ≤ j) :
    (l1 ++ l2).getD j 0 = l2.getD (j - l1.length) 0 := by
  simp [List.getD_eq_getElem?_getD, List.getElem?_append_right h]

/-- `getD` through an elementwise product of two lists. -/
theorem getD_zipWith_mul (l1 l2 : List ℝ) (j : ℕ) (h1 : j < l1.length)
    (h2 : j < l2.length) :
    (List.zipWith (fun a w => a * w) l1 l2).getD j 0 = l1.getD j 0 * l2.getD j 0 := by
  simp only [List.getD_eq_getElem?_getD, List.getElem?_zipWith,
    List.getElem?_eq_getElem h1, List.getElem?_eq_getElem h2]
  simp [List.getD_eq_getElem?_getD, List.getElem?_eq_getElem h1,
    List.getElem?_eq_getElem h2]

/-- `getD` of a mapped `range`. -/
theorem getD_range_map (f : ℕ → ℝ) (n j : ℕ) (h : j < n) :
    ((List.range n).map f).getD j 0 = f j := by
  simp [List.getD_eq_getElem?_getD, List.getElem?_map, List.getElem?_range h]

/-- In the crossfaded tail region, `_apply_crossfade` multiplies the
sample by the raised-cosine fade-out window. -/
theorem applyCrossfade_getD_fade_region (cfg : FrameConfig) (data : List ℝ)
    (fi : FrameInfo) (j : ℕ)
    (ht : cfg.crossfade_type = CrossfadeType.raised_cosine)
    (hV : 0 < cfg.overlap_size)
    (hne : fi.needs_crossfade_end = true)
    (hVlen : cfg.overlap_size ≤ data.length)
    (hj1 : data.length - cfg.overlap_size ≤ j) (hj2 : j < data.length) :
    (applyCrossfade cfg data fi).getD j 0 =
      data.getD j 0 *
        raisedCosineFadeOut cfg.overlap_size
          (j - (data.length - cfg.overlap_size)) := by
  unfold applyCrossfade
  rw [ht]
  rw [if_neg (not_or.mpr ⟨by simp, by omega⟩)]
  dsimp only
  rw [if_pos (show fi.needs_crossfade_end = true ∧
      cfg.overlap_size ≤ data.length from ⟨hne, hVlen⟩)]
  have hlt : (data.take (data.length - cfg.overlap_size)).length =
      data.length - cfg.overlap_size := by
    rw [List.length_take]
    omega
  rw [getD_append_right_le _ _ j (by rw [hlt]; omega)]
  rw [hlt]
  rw [getD_zipWith_mul _ _ _ (by rw [List.length_drop]; omega)
    (by rw [List.length_map, List.length_range]; omega)]
  rw [getD_drop_add, getD_range_map _ _ _ (by omega)]
  congr 2
  omega

/-- Below the crossfaded tail region, `_apply_crossfade` leaves the
sample unchanged (whether or not the fade branch applies). -/
theorem applyCrossfade_getD_below (cfg : FrameConfig) (data : List ℝ)
    (fi : FrameInfo) (j : ℕ)
    (ht : cfg.crossfade_type = CrossfadeType.raised_cosine)
    (hV : 0 < cfg.overlap_size)
    (hj : j < data.length - cfg.overlap_size) :
    (applyCrossfade cfg data fi).getD j 0 = data.getD j 0 := by
  unfold applyCrossfade
  rw [ht]
  rw [if_neg (not_or.mpr ⟨by simp, by omega⟩)]
  dsimp only
  split
  · rw [getD_append_left_lt _ _ j (by rw [List.length_take]; omega)]
    rw [getD_take_of_lt _ _ _ (by omega)]
  · rfl

end Matchering

namespace Matchering

/-- Frames that start after `i` contribute nothing at `i`. -/
theorem frameContrib_eq_zero_of_lt_start (cfg : FrameConfig) (L : ℕ)
    (p : List ℝ × FrameInfo) (i : ℕ) (hi : i < p.2.start_sample) :
    frameContrib cfg L p i = 0 := by
  unfold frameContrib
  dsimp only
  split
  · rfl
  · rw [if_neg (show ¬ (p.2.start_sample ≤ i ∧
      i < min (p.2.start_sample + p.1.length) L) by omega)]

/-- The segmentation loop started past `i` contributes nothing at `i`. -/
theorem segLoop_sum_vanish (cfg : FrameConfig) (x : List ℝ) :
    ∀ (fuel start idx i : ℕ), i < start →
      ((segLoop cfg x fuel start idx).map
          (fun p => frameContrib cfg x.length p i)).sum = 0 := by
  intro fuel
  induction fuel with
  | zero =>
    intro start idx i hi
    rw [segLoop]
    rw [if_pos rfl]
    simp
  | succ f ih =>
    intro start idx i hi
    rw [segLoop]
    rw [if_neg (by omega : ¬ (f + 1 = 0))]
    by_cases hs : start < x.length
    · rw [if_pos hs]
      dsimp only
      simp only [Nat.add_sub_cancel, List.map_cons, List.sum_cons]
      rw [ih (start + cfg.hop_size) (idx + 1) i (by omega)]
      rw [frameContrib_eq_zero_of_lt_start cfg x.length _ i (by exact hi)]
      ring
    · rw [if_neg hs]
      simp

/-- C1 (amended): with a raised-cosine crossfade, nonzero overlap at most
half the frame size, and a signal longer than one frame, the
reconstruction of the unmodified segmentation at each index of the
overlap between the first two frames equals the original sample scaled by
`1 + fade_out` — the first frame's faded tail is added on top of the
second frame's full-gain leading edge, so the overlap does not sum to
unity gain. -/
theorem overlap_region_gain (cfg : FrameConfig) (x : List ℝ) (i : ℕ)
    (ht : cfg.crossfade_type = CrossfadeType.raised_cosine)
    (hV : 0 < cfg.overlap_size)
    (hVF : 2 * cfg.overlap_size ≤ cfg.full_frame_size)
    (hL : cfg.full_frame_size < x.length)
    (hi1 : cfg.hop_size ≤ i) (hi2 : i < cfg.full_frame_size) :
    reconstruct_audio cfg (segment_audio cfg x) x.length i =
      (1 + raisedCosineFadeOut cfg.overlap_size (i - cfg.hop_size)) * x.getD i 0 := by
  have hhop : cfg.hop_size = cfg.full_frame_size - cfg.overlap_size := rfl
  have hhop1 : 1 ≤ cfg.hop_size := by omega
  have hhopF : cfg.hop_size < cfg.full_frame_size := by omega
  have hF2hop : cfg.full_frame_size ≤ 2 * cfg.hop_size := by omega
  have hc0 : frameContrib cfg x.length
      (x.take cfg.full_frame_size,
        { index := 0, start_sample := 0, end_sample := cfg.full_frame_size,
          actual_size := cfg.full_frame_size,
          needs_crossfade_start := decide (0 < 0),
          needs_crossfade_end := true, is_last_frame := false }) i =
      x.getD i 0 * raisedCosineFadeOut cfg.overlap_size (i - cfg.hop_size) := by
    have hlenF : (x.take cfg.full_frame_size).length = cfg.full_frame_size := by
      rw [List.length_take]
      omega
    unfold frameContrib
    dsimp only
    rw [hlenF]
    rw [show min (0 + cfg.full_frame_size) x.length = cfg.full_frame_size by omega]
    rw [if_neg (show ¬ (cfg.full_frame_size ≤ 0) by omega)]
    rw [if_pos (show 0 < cfg.overlap_size ∧ (false : Bool) = false from ⟨hV, rfl⟩)]
    rw [if_pos (show 0 ≤ i ∧ i < cfg.full_frame_size from ⟨Nat.zero_le i, hi2⟩)]
    rw [Nat.sub_zero, Nat.sub_zero, List.take_take, min_self]
    rw [applyCrossfade_getD_fade_region cfg _ _ i ht hV rfl
      (by rw [hlenF]; omega) (by rw [hlenF]; omega) (by rw [hlenF]; omega)]
    rw [hlenF]
    rw [getD_take_of_lt _ _ _ (show i < cfg.full_frame_size by omega)]
    rw [hhop]
  have hc1 : frameContrib cfg x.length
      ((x.drop cfg.hop_size).take
          ((cfg.hop_size + cfg.full_frame_size) ⊓ x.length - cfg.hop_size),
        { index := 1, start_sample := cfg.hop_size,
          end_sample := (cfg.hop_size + cfg.full_frame_size) ⊓ x.length,
          actual_size := (cfg.hop_size + cfg.full_frame_size) ⊓ x.length - cfg.hop_size,
          needs_crossfade_start := decide (0 < cfg.hop_size),
          needs_crossfade_end :=
            decide ((cfg.hop_size + cfg.full_frame_size) ⊓ x.length < x.length),
          is_last_frame :=
            decide (x.length ≤ (cfg.hop_size + cfg.full_frame_size) ⊓ x.length) }) i =
      x.getD i 0 := by
    have hdlen : ((x.drop cfg.hop_size).take
        ((cfg.hop_size + cfg.full_frame_size) ⊓ x.length - cfg.hop_size)).length =
        (cfg.hop_size + cfg.full_frame_size) ⊓ x.length - cfg.hop_size := by
      rw [List.length_take, List.length_drop]
      omega
    unfold frameContrib
    dsimp only
    rw [hdlen]
    rw [show min (cfg.hop_size +
        ((cfg.hop_size + cfg.full_frame_size) ⊓ x.length - cfg.hop_size)) x.length =
        (cfg.hop_size + cfg.full_frame_size) ⊓ x.length by omega]
    rw [if_neg (show ¬ ((cfg.hop_size + cfg.full_frame_size) ⊓ x.length ≤
        cfg.hop_size) by omega)]
    rw [List.take_take, min_self]
    by_cases hlast : x.length ≤ cfg.hop_size + cfg.full_frame_size
    · rw [if_neg (show ¬ (0 < cfg.overlap_size ∧
          decide (x.length ≤ (cfg.hop_size + cfg.full_frame_size) ⊓ x.length) =
            false) by
        rw [decide_eq_true (show x.length ≤
          (cfg.hop_size + cfg.full_frame_size) ⊓ x.length by omega)]
        simp)]
      rw [if_pos (show cfg.hop_size ≤ i ∧
          i < (cfg.hop_size + cfg.full_frame_size) ⊓ x.length from ⟨hi1, by omega⟩)]
      rw [getD_take_of_lt _ _ _ (by omega), getD_drop_add]
      congr 1
      omega
    · rw [if_pos (show 0 < cfg.overlap_size ∧
          decide (x.length ≤ (cfg.hop_size + cfg.full_frame_size) ⊓ x.length) =
            false from ⟨hV, decide_eq_false (by omega)⟩)]
      rw [if_pos (show cfg.hop_size ≤ i ∧
          i < (cfg.hop_size + cfg.full_frame_size) ⊓ x.length from ⟨hi1, by omega⟩)]
      rw [applyCrossfade_getD_below cfg _ _ (i - cfg.hop_size) ht hV
        (by rw [hdlen]; omega)]
      rw [getD_take_of_lt _ _ _ (by omega), getD_drop_add]
      congr 1
      omega
  rw [reconstruct_audio_apply]
  unfold segment_audio
  rw [if_neg (show ¬ (x.length ≤ cfg.full_frame_size) by omega)]
  rw [segLoop]
  rw [if_neg (show ¬ (x.length = 0) by omega)]
  rw [if_pos (show 0 < x.length by omega)]
  dsimp only
  simp only [List.map_cons, List.sum_cons, Nat.zero_add]
  rw [segLoop]
  rw [if_neg (show ¬ (x.length - 1 = 0) by omega)]
  rw [if_pos (show cfg.hop_size < x.length by omega)]
  dsimp only
  simp only [List.map_cons, List.sum_cons]
  rw [segLoop_sum_vanish cfg x _ _ _ i
    (show i < cfg.hop_size + cfg.hop_size by omega)]
  simp only [show cfg.full_frame_size ⊓ x.length = cfg.full_frame_size from
      min_eq_left (by omega),
    List.drop_zero, Nat.sub_zero,
    decide_eq_true (show cfg.full_frame_size < x.length from hL),
    decide_eq_false (show ¬ (x.length ≤ cfg.full_frame_size) by omega)]
  rw [hc0, hc1]
  ring

end Matchering

namespace Matchering

/-- The two-sample raised-cosine fade-out window starts at full gain. -/
theorem raisedCosineFadeOut_two_zero : raisedCosineFadeOut 2 0 = 1 := by
  unfold raisedCosineFadeOut linspace
  norm_num

/-- The two-sample raised-cosine fade-out window ends at zero gain. -/
theorem raisedCosineFadeOut_two_one : raisedCosineFadeOut 2 1 = 0 := by
  unfold raisedCosineFadeOut linspace
  rw [if_neg (by norm_num)]
  rw [show ((0:ℝ) + (Real.pi - 0) * ((1:ℕ):ℝ) / (((2:ℕ):ℝ) - 1)) * (1/2) =
      Real.pi / 2 by push_cast; ring]
  rw [Real.cos_pi_div_two]
  norm_num

/-- The segmentation of a constant 6-sample signal with frame size 4 and
overlap 2: frames at 0, 2 and 4, the last two flagged as last. -/
theorem seg_c1_example :
    segment_audio (⟨"", 4, 2, CrossfadeType.raised_cosine, ""⟩ : FrameConfig)
      [(1:ℝ)/2, 1/2, 1/2, 1/2, 1/2, 1/2] =
    [([(1:ℝ)/2, 1/2, 1/2, 1/2],
      { index := 0, start_sample := 0, end_sample := 4, actual_size := 4,
        needs_crossfade_start := false, needs_crossfade_end := true,
        is_last_frame := false }),
     ([(1:ℝ)/2, 1/2, 1/2, 1/2],
      { index := 1, start_sample := 2, end_sample := 6, actual_size := 4,
        needs_crossfade_start := true, needs_crossfade_end := false,
        is_last_frame := true }),
     ([(1:ℝ)/2, 1/2],
      { index := 2, start_sample := 4, end_sample := 6, actual_size := 2,
        needs_crossfade_start := true, needs_crossfade_end := false,
        is_last_frame := true })] := by
  unfold segment_audio
  rw [if_neg (by norm_num)]
  rw [segLoop]
  norm_num [FrameConfig.hop_size, Nat.min_def]
  rw [segLoop]
  norm_num [FrameConfig.hop_size, Nat.min_def]
  rw [segLoop]
  norm_num [FrameConfig.hop_size, Nat.min_def]
  rw [segLoop]
  norm_num

end Matchering

namespace Matchering

/-- C1 (counterexample): for the constant smooth signal `1/2` of length 6
with frame size 4, overlap 2 and a raised-cosine crossfade, the
reconstruction of the unmodified segmentation has mean-squared error
`1/8`, not below `1e-3`: the overlap samples come back with gain
`1 + fade_out` (up to 2), so segmentation+reconstruction is not a
near-identity transform. -/
theorem overlap_roundtrip_mse_not_small :
    ¬ (mseList [(1:ℝ)/2, 1/2, 1/2, 1/2, 1/2, 1/2]
        (reconstruct_audio (⟨"", 4, 2, CrossfadeType.raised_cosine, ""⟩ : FrameConfig)
          (segment_audio (⟨"", 4, 2, CrossfadeType.raised_cosine, ""⟩ : FrameConfig)
            [(1:ℝ)/2, 1/2, 1/2, 1/2, 1/2, 1/2]) 6) < 1e-3) := by
  have hmse : mseList [(1:ℝ)/2, 1/2, 1/2, 1/2, 1/2, 1/2]
      (reconstruct_audio (⟨"", 4, 2, CrossfadeType.raised_cosine, ""⟩ : FrameConfig)
        (segment_audio (⟨"", 4, 2, CrossfadeType.raised_cosine, ""⟩ : FrameConfig)
          [(1:ℝ)/2, 1/2, 1/2, 1/2, 1/2, 1/2]) 6) = 1/8 := by
    rw [seg_c1_example]
    unfold mseList
    norm_num [reconstruct_audio_apply, Finset.sum_range_succ, frameContrib,
      applyCrossfade, raisedCosineFadeOut_two_zero, raisedCosineFadeOut_two_one,
      Nat.min_def, List.range_succ,
      show ¬ (CrossfadeType.raised_cosine = CrossfadeType.none) by decide]
  rw [hmse]
  norm_num

end Matchering

namespace Matchering

/-- C1 (witness for the amended overlap-gain theorem): frame size 4,
overlap 2, a 6-sample constant signal, at overlap index 2. -/
theorem overlap_region_gain_witness :
    ((⟨"", 4, 2, CrossfadeType.raised_cosine, ""⟩ : FrameConfig).crossfade_type =
        CrossfadeType.raised_cosine ∧
      0 < (⟨"", 4, 2, CrossfadeType.raised_cosine, ""⟩ : FrameConfig).overlap_size ∧
      2 * (⟨"", 4, 2, CrossfadeType.raised_cosine, ""⟩ : FrameConfig).overlap_size ≤
        (⟨"", 4, 2, CrossfadeType.raised_cosine, ""⟩ : FrameConfig).full_frame_size ∧
      (⟨"", 4, 2, CrossfadeType.raised_cosine, ""⟩ : FrameConfig).full_frame_size <
        ([(1:ℝ), 1, 1, 1, 1, 1]).length ∧
      (⟨"", 4, 2, CrossfadeType.raised_cosine, ""⟩ : FrameConfig).hop_size ≤ 2 ∧
      2 < (⟨"", 4, 2, CrossfadeType.raised_cosine, ""⟩ : FrameConfig).full_frame_size) ∧
    reconstruct_audio (⟨"", 4, 2, CrossfadeType.raised_cosine, ""⟩ : FrameConfig)
        (segment_audio (⟨"", 4, 2, CrossfadeType.raised_cosine, ""⟩ : FrameConfig)
          [(1:ℝ), 1, 1, 1, 1, 1]) ([(1:ℝ), 1, 1, 1, 1, 1]).length 2 =
      (1 + raisedCosineFadeOut
          (⟨"", 4, 2, CrossfadeType.raised_cosine, ""⟩ : FrameConfig).overlap_size
          (2 - (⟨"", 4, 2, CrossfadeType.raised_cosine, ""⟩ : FrameConfig).hop_size)) *
        ([(1:ℝ), 1, 1, 1, 1, 1]).getD 2 0 :=
  ⟨⟨rfl, by decide, by decide, by decide, by decide, by decide⟩,
   overlap_region_gain _ _ 2 rfl (by decide) (by decide) (by decide)
     (by decide) (by decide)⟩

end Matchering
